import Mathlib

set_option maxRecDepth 100000

/-!
Verification of the docx2hf upload pipeline (src/app.py).

The program's core logic (lines 229-263 of src/app.py) is:

  - extract_text_from_docx: parse an uploaded file's bytes with python-docx
    and join the non-blank paragraph texts with a newline;
  - create_jsonl_data: iterate over the uploaded files with enumerate,
    reject files whose MIME type is not the DOCX type (warning per file),
    and route each accepted file's record to the test subset when
    i % (100/test_split) == 0 and to the train subset otherwise;
  - the upload button handler: report "No valid files to process." when both
    subsets are empty, otherwise push {train, test} to the hub under the
    user-supplied repository name;
  - the sidebar slider (line 95) constrains test_split to 10..50.

Python evaluates 100/test_split in IEEE-754 binary64 arithmetic, so the
embedding models that arithmetic exactly over ℚ: float division rounds the
exact rational quotient to 53 significant bits (round to nearest, ties to
even), int-to-float conversion does the same, and a % b for nonnegative
floats is exact (the real number a - ⌊a/b⌋·b is always representable, a
standard fact about fmod), so the modulo comparison with 0 is an exact
rational comparison.  The exponent is modelled as unbounded, which agrees
with binary64 on every magnitude below 2^1024; all values reached by the
program are far below that.
-/

namespace DocxApp

/-- Round a rational to the nearest integer, ties to even: the rounding
applied to the scaled significand by IEEE-754 round-to-nearest-even. -/
def rhe (s : ℚ) : ℤ :=
  if s - ⌊s⌋ < 1/2 then ⌊s⌋
  else if 1/2 < s - ⌊s⌋ then ⌊s⌋ + 1
  else if ⌊s⌋ % 2 = 0 then ⌊s⌋ else ⌊s⌋ + 1

/-- Fuel-driven floor of log base 2 (structural recursion so that concrete
instances reduce in the kernel). -/
def log2Aux : ℕ → ℕ → ℕ
  | 0, _ => 0
  | fuel + 1, n => if n < 2 then 0 else log2Aux fuel (n / 2) + 1

/-- Floor of log base 2 of a positive natural number. -/
def natLog2 (n : ℕ) : ℕ := log2Aux n n

/-- The binary64 double nearest a rational q (round to nearest, ties to
even, unbounded exponent).  Only used on q = 0 and q ≥ 1, which covers every
value this program rounds: 100/test_split for test_split in 1..100, and
nonnegative integer indices.  On q < 1 the function returns q itself. -/
def roundDouble (q : ℚ) : ℚ :=
  if q < 1 then q
  else
    let e := natLog2 ⌊q⌋.toNat
    if e ≤ 52 then (rhe (q * 2 ^ (52 - e)) : ℚ) / 2 ^ (52 - e)
    else (rhe (q / 2 ^ (e - 52)) : ℚ) * 2 ^ (e - 52)

/-- Python a % b for nonnegative finite floats a, b with b > 0: fmod is
exact, so the result is the exact rational a - ⌊a/b⌋·b. -/
def pyFmod (a b : ℚ) : ℚ := a - ⌊a / b⌋ * b

/-- The accepted MIME type (line 237 of src/app.py). -/
def acceptedType : String :=
  "application/vnd.openxmlformats-officedocument.wordprocessingml.document"

/-- Abstraction of one uploaded file's binary stream.  `parsed` is the
outcome of python-docx Document() on the stream's full contents: the ordered
paragraph texts, or none when the bytes are not a valid DOCX container (the
library raises).  `consumed` records whether read() has already drained the
stream; a drained stream yields empty bytes, which are not a valid
container, so parsing them also fails. -/
structure DocxStream where
  parsed : Option (List String)
  consumed : Bool
deriving DecidableEq

/-- An item from st.file_uploader: name, declared MIME type, binary stream. -/
structure UploadedFile where
  name : String
  type : String
  stream : DocxStream
deriving DecidableEq

/-- The record shape built on line 239 of src/app.py. -/
structure DocRecord where
  section_title : String
  content : String
deriving DecidableEq

/-- The docx_file.read() call on line 230: returns the full contents the
first time and empty bytes (parse failure) afterwards, leaving the stream
drained either way. -/
def readDocx (s : DocxStream) : Option (List String) × DocxStream :=
  if s.consumed then (none, { s with consumed := true })
  else (s.parsed, { s with consumed := true })

/-- Python str.join over a list (sep.join(xs)). -/
def pyJoin (sep : String) : List String → String
  | [] => ""
  | [p] => p
  | p :: rest => p ++ sep ++ pyJoin sep rest

/-- Truthiness of para.text.strip() on line 231: Python strips leading and
trailing whitespace, so the stripped string is truthy (non-empty) exactly
when some character is not whitespace. -/
def pyStripNonEmpty (s : String) : Bool :=
  s.data.any (fun c => !c.isWhitespace)

/-- The list comprehension and join on line 231: keep paragraphs whose
stripped text is truthy, join the unstripped texts with a newline. -/
def paragraphJoin (paras : List String) : String :=
  pyJoin "\n" (paras.filter (fun para => pyStripNonEmpty para))

/-- Lines 229-231, extract_text_from_docx: read the stream, parse it with
Document(), and join the non-blank paragraph texts.  The first component is
none when Document() raises (malformed bytes, or a drained stream); the
second component is the stream state after read(). -/
def extract_text_from_docx (s : DocxStream) : Option String × DocxStream :=
  let r := readDocx s
  (r.1.map paragraphJoin, r.2)

/-- Record built at line 239 for one extracted content string. -/
def mkDocument (content : String) : DocRecord :=
  { section_title := "RAG Post", content := content }

/-- The float period 100/test_split computed on line 240 (binary64
division of exact operands rounds the exact quotient once). -/
def splitPeriod (test_split : ℕ) : ℚ :=
  roundDouble ((100 : ℚ) / (test_split : ℚ))

/-- The test on line 240: i % (100/test_split) == 0 under binary64
semantics.  The index is converted to a double (exact below 2^53) and the
fmod result is exact, so the comparison is an exact rational equality. -/
def isTestIndex (test_split i : ℕ) : Bool :=
  decide (pyFmod (roundDouble (i : ℚ)) (splitPeriod test_split) = 0)

/-- The warning emitted on line 245 for a rejected file. -/
def warnOf (f : UploadedFile) : String :=
  "File type " ++ f.type ++ " not supported!"

/-- Loop body of create_jsonl_data (lines 234-246), with the enumerate
index threaded explicitly.  Returns (train_data, test_data, warnings) in
emission order, or none when an accepted-type file fails to parse: the
exception from Document() propagates out of the function, so no value is
returned at all.  test_split is the slider value read by the function. -/
def createAux (test_split : ℕ) : ℕ → List UploadedFile → Option (List DocRecord × List DocRecord × List String)
  | _, [] => some ([], [], [])
  | i, f :: rest =>
    if f.type = acceptedType then
      match (extract_text_from_docx f.stream).1 with
      | none => none
      | some content =>
        match createAux test_split (i + 1) rest with
        | none => none
        | some (train, test, warns) =>
          if isTestIndex test_split i then some (train, mkDocument content :: test, warns)
          else some (mkDocument content :: train, test, warns)
    else
      match createAux test_split (i + 1) rest with
      | none => none
      | some (train, test, warns) => some (train, test, warnOf f :: warns)

/-- Lines 234-246: create_jsonl_data(file_objects) with enumerate starting
at index 0. -/
def create_jsonl_data (test_split : ℕ) (file_objects : List UploadedFile) :
    Option (List DocRecord × List DocRecord × List String) :=
  createAux test_split 0 file_objects

/-- Outcome of the button handler on lines 253-263. -/
inductive RunOutcome where
  | published (repo : String) (train test : List DocRecord)
  | noValidFiles
  | error
deriving DecidableEq

/-- Lines 253-263: build the splits and either push {train, test} to the
hub under repo_name, or report "No valid files to process." when both are
empty.  An exception from create_jsonl_data aborts the handler. -/
def generate_and_upload (test_split : ℕ) (repo_name : String) (files : List UploadedFile) : RunOutcome :=
  match create_jsonl_data test_split files with
  | none => .error
  | some (train, test, _) =>
    if train.isEmpty && test.isEmpty then .noValidFiles
    else .published repo_name train test

/-- Slider bounds from line 95: st.slider("Test Split \x25", 10, 50, 20). -/
def testSplitSliderMin : ℕ := 10

/-- Upper slider bound from line 95. -/
def testSplitSliderMax : ℕ := 50

/-- Slider default from line 95. -/
def testSplitSliderDefault : ℕ := 20

/-- The split percentages the UI can actually supply. -/
@[reducible] def reachableTestSplit (P : ℕ) : Prop :=
  testSplitSliderMin ≤ P ∧ P ≤ testSplitSliderMax

/-- Total content accessor used to state results: the text the extractor
would return, with the unreachable failure case mapped to "". -/
def fileText (f : UploadedFile) : String :=
  ((extract_text_from_docx f.stream).1).getD ""

/-- The record create_jsonl_data builds for an accepted file. -/
def fileRecord (f : UploadedFile) : DocRecord :=
  mkDocument (fileText f)

/-- A file as the uploader delivers it: declared DOCX type, fresh stream,
well-formed contents. -/
@[reducible] def OKfile (f : UploadedFile) : Prop :=
  f.type = acceptedType ∧ f.stream.consumed = false ∧ f.stream.parsed ≠ none

/-- Reference splitter over accepted files only: route the record of the
file at index i by isTestIndex, keeping both subsets in input order. -/
def splitRecords (test_split : ℕ) : ℕ → List UploadedFile → List DocRecord × List DocRecord
  | _, [] => ([], [])
  | i, f :: rest =>
    let r := splitRecords test_split (i + 1) rest
    if isTestIndex test_split i then (r.1, fileRecord f :: r.2)
    else (fileRecord f :: r.1, r.2)

/-- Modelled from the spec: "compute period = 100 / P (real-valued); if
i modulo period == 0, assign to the test subset".  The real-valued residue
of i modulo 100/P, to be compared with the binary64 computation the code
actually performs. -/
@[reducible] def specRealIsTest (P i : ℕ) : Prop :=
  pyFmod (i : ℚ) ((100 : ℚ) / (P : ℚ)) = 0

/-- Modelled from the spec: "filter out paragraphs whose trimmed text is
empty; join the remaining paragraph texts with a newline separator". -/
def specJoinNewline : List String → String
  | [] => ""
  | [p] => p
  | p :: rest => p ++ "\n" ++ specJoinNewline rest

/-- Modelled from the spec: the text with leading and trailing whitespace
removed. -/
def specTrim (s : String) : String :=
  String.mk (((s.data.dropWhile Char.isWhitespace).reverse.dropWhile
    Char.isWhitespace).reverse)

/-- Modelled from the spec: the Text Extractor's output on a parsed
paragraph sequence. -/
def specExtractText (paras : List String) : String :=
  specJoinNewline (paras.filter (fun para => decide (specTrim para ≠ "")))

/-- Sample well-formed DOCX upload used for witnesses. -/
def sampleStream : DocxStream :=
  { parsed := some ["Hello paragraph"], consumed := false }

/-- Sample accepted upload. -/
def sampleDocx : UploadedFile :=
  { name := "a.docx", type := acceptedType, stream := sampleStream }

/-- Second accepted upload with the same contents under another name. -/
def sampleDocx2 : UploadedFile :=
  { name := "b.docx", type := acceptedType, stream := sampleStream }

/-- The record both sample DOCX uploads produce. -/
def sampleRecord : DocRecord :=
  { section_title := "RAG Post", content := "Hello paragraph" }

/-- Sample rejected upload (wrong MIME type). -/
def sampleTxt : UploadedFile :=
  { name := "c.txt", type := "text/plain", stream := { parsed := none, consumed := false } }

/-- Sample accepted-type upload whose bytes are not a valid DOCX. -/
def badDocx : UploadedFile :=
  { name := "bad.docx", type := acceptedType, stream := { parsed := none, consumed := false } }


/-! Arithmetic facts about the binary64 model. -/

theorem rhe_intCast (n : ℤ) : rhe (n : ℚ) = n := by
  unfold rhe
  rw [Int.floor_intCast]
  norm_num

theorem log2Aux_le : ∀ (fuel n : ℕ), 1 ≤ n → n ≤ fuel → 2 ^ log2Aux fuel n ≤ n := by
  intro fuel
  induction fuel with
  | zero => intro n h1 h2; omega
  | succ fuel ih =>
    intro n h1 h2
    rw [log2Aux]
    split
    · simpa using h1
    · have h3 : 1 ≤ n / 2 := by omega
      have h4 : n / 2 ≤ fuel := by omega
      have h5 := ih (n / 2) h3 h4
      have h6 : 2 ^ (log2Aux fuel (n / 2) + 1) = 2 ^ log2Aux fuel (n / 2) * 2 := by ring
      omega

theorem natLog2_le_52 (n : ℕ) (h : n < 2 ^ 53) : natLog2 n ≤ 52 := by
  rcases Nat.eq_zero_or_pos n with h0 | h1
  · subst h0; simp [natLog2, log2Aux]
  · by_contra hgt
    have h53 : 53 ≤ natLog2 n := by omega
    have := log2Aux_le n n h1 le_rfl
    have hpow : (2 : ℕ) ^ 53 ≤ 2 ^ natLog2 n := Nat.pow_le_pow_right (by norm_num) h53
    unfold natLog2 at *
    omega

theorem roundDouble_zero : roundDouble 0 = 0 := by
  norm_num [roundDouble]

theorem roundDouble_natCast (n : ℕ) (h : n < 2 ^ 53) : roundDouble (n : ℚ) = n := by
  rcases Nat.eq_zero_or_pos n with h0 | h1
  · subst h0; simpa using roundDouble_zero
  · have hn1 : ¬ ((n : ℚ) < 1) := by
      push_neg
      exact_mod_cast h1
    have hfloor : ⌊(n : ℚ)⌋ = (n : ℤ) := Int.floor_natCast n
    unfold roundDouble
    rw [if_neg hn1, hfloor, Int.toNat_natCast]
    have he : natLog2 n ≤ 52 := natLog2_le_52 n h
    rw [if_pos he]
    have hcast : (n : ℚ) * 2 ^ (52 - natLog2 n) = (((n * 2 ^ (52 - natLog2 n) : ℕ) : ℤ) : ℚ) := by
      push_cast
      ring
    rw [hcast, rhe_intCast]
    have hne : ((2 : ℚ)) ^ (52 - natLog2 n) ≠ 0 := by positivity
    push_cast
    field_simp

theorem roundDouble_one : roundDouble 1 = 1 := by
  have := roundDouble_natCast 1 (by norm_num)
  simpa using this

theorem pyFmod_zero (b : ℚ) : pyFmod 0 b = 0 := by
  unfold pyFmod
  norm_num

theorem pyFmod_one (b : ℚ) (h : 1 < b) : pyFmod 1 b = 1 := by
  have hb : 0 < b := lt_trans one_pos h
  have hfl : ⌊(1 : ℚ) / b⌋ = 0 := by
    apply Int.floor_eq_zero_iff.mpr
    constructor
    · positivity
    · exact (div_lt_one hb).mpr h
  unfold pyFmod
  rw [hfl]
  norm_num

theorem pyFmod_eq_zero_iff (a b : ℚ) (hb : 0 < b) :
    pyFmod a b = 0 ↔ ∃ k : ℤ, a = k * b := by
  unfold pyFmod
  constructor
  · intro h
    exact ⟨⌊a / b⌋, by linarith⟩
  · rintro ⟨k, rfl⟩
    have hbne : b ≠ 0 := ne_of_gt hb
    have h1 : ((k : ℚ)) * b / b = (k : ℚ) := mul_div_cancel_right₀ _ hbne
    rw [h1, Int.floor_intCast]
    ring

theorem isTestIndex_zero (ts : ℕ) : isTestIndex ts 0 = true := by
  unfold isTestIndex
  rw [Nat.cast_zero, roundDouble_zero, pyFmod_zero]
  simp

theorem splitPeriod_gt_one : ∀ P : ℕ, 10 ≤ P → P ≤ 50 → 1 < splitPeriod P := by
  have h : ∀ P : ℕ, P < 51 → 10 ≤ P → 1 < splitPeriod P := by with_unfolding_all decide
  intro P h10 h50
  exact h P (by omega) h10

theorem splitPeriod_pos (P : ℕ) (h10 : 10 ≤ P) (h50 : P ≤ 50) : 0 < splitPeriod P :=
  lt_trans one_pos (splitPeriod_gt_one P h10 h50)

theorem isTestIndex_one (P : ℕ) (h10 : 10 ≤ P) (h50 : P ≤ 50) :
    isTestIndex P 1 = false := by
  unfold isTestIndex
  rw [Nat.cast_one, roundDouble_one, pyFmod_one _ (splitPeriod_gt_one P h10 h50)]
  simp

theorem int_multiple_iff (n : ℤ) (q : ℚ) :
    (∃ k : ℤ, (n : ℚ) = k * q) ↔ q.num ∣ n := by
  have hden : ((q.den : ℚ)) ≠ 0 := Nat.cast_ne_zero.mpr q.den_nz
  have h0 := Rat.num_div_den q
  rw [div_eq_iff hden] at h0
  have hcop : IsCoprime (q.num) ((q.den : ℤ)) := by
    rw [Int.isCoprime_iff_gcd_eq_one]
    simpa [Int.gcd] using q.reduced
  constructor
  · rintro ⟨k, hk⟩
    have h1 : (n : ℚ) * (q.den : ℚ) = (k : ℚ) * ((q.num : ℚ)) := by
      rw [hk, h0]
      ring
    have h2 : n * (q.den : ℤ) = k * q.num := by exact_mod_cast h1
    have h3 : q.num ∣ n * (q.den : ℤ) := ⟨k, by rw [h2, mul_comm]⟩
    exact hcop.dvd_of_dvd_mul_right h3
  · rintro ⟨t, rfl⟩
    refine ⟨t * q.den, ?_⟩
    push_cast
    rw [h0]
    ring

theorem isTestIndex_iff_dvd (ts i : ℕ) (hi : i < 2 ^ 53) (hp : 0 < splitPeriod ts) :
    isTestIndex ts i = true ↔ (splitPeriod ts).num ∣ (i : ℤ) := by
  unfold isTestIndex
  rw [roundDouble_natCast i hi, decide_eq_true_eq, pyFmod_eq_zero_iff _ _ hp]
  have hcast : ((i : ℕ) : ℚ) = (((i : ℕ) : ℤ) : ℚ) := by push_cast; ring
  rw [hcast]
  exact int_multiple_iff (i : ℤ) _


/-! Structural facts about the pipeline. -/

theorem extract_parsed_none (s : DocxStream) (h : s.parsed = none) :
    (extract_text_from_docx s).1 = none := by
  unfold extract_text_from_docx readDocx
  by_cases hc : s.consumed <;> simp [hc, h]

theorem extract_ok (f : UploadedFile) (h : OKfile f) :
    (extract_text_from_docx f.stream).1 = some (fileText f) := by
  obtain ⟨-, hc, hp⟩ := h
  obtain ⟨ps, hps⟩ := Option.ne_none_iff_exists'.mp hp
  simp [extract_text_from_docx, readDocx, fileText, hc, hps]

theorem fileRecord_of_extract (f : UploadedFile) (c : String)
    (h : (extract_text_from_docx f.stream).1 = some c) :
    fileRecord f = mkDocument c := by
  simp [fileRecord, fileText, h]

theorem createAux_malformed (ts : ℕ) :
    ∀ (files : List UploadedFile) (i : ℕ),
      (∃ f ∈ files, f.type = acceptedType ∧ f.stream.parsed = none) →
      createAux ts i files = none := by
  intro files
  induction files with
  | nil => rintro i ⟨f, hf, -⟩; simp at hf
  | cons f rest ih =>
    rintro i ⟨g, hg, hgt, hgp⟩
    rcases List.mem_cons.mp hg with rfl | hg
    · simp [createAux, hgt, extract_parsed_none _ hgp]
    · have hrec := ih (i + 1) ⟨g, hg, hgt, hgp⟩
      unfold createAux
      rw [hrec]
      by_cases hf : f.type = acceptedType
      · simp only [if_pos hf]
        cases (extract_text_from_docx f.stream).1 <;> simp
      · simp [hf]

theorem createAux_warnings (ts : ℕ) :
    ∀ (files : List UploadedFile) (i : ℕ) (tr te : List DocRecord) (ws : List String),
      createAux ts i files = some (tr, te, ws) →
      ws = (files.filter (fun f => decide (f.type ≠ acceptedType))).map warnOf := by
  intro files
  induction files with
  | nil =>
    intro i tr te ws h
    simp [createAux] at h
    simp [h.2.2]
  | cons f rest ih =>
    intro i tr te ws h
    unfold createAux at h
    by_cases hf : f.type = acceptedType
    · rw [if_pos hf] at h
      cases he : (extract_text_from_docx f.stream).1 with
      | none => rw [he] at h; exact absurd h (by simp)
      | some c =>
        rw [he] at h
        cases hr : createAux ts (i + 1) rest with
        | none => rw [hr] at h; exact absurd h (by simp)
        | some v =>
          obtain ⟨tr', te', ws'⟩ := v
          rw [hr] at h
          have hws : ws = ws' := by
            by_cases ht : isTestIndex ts i <;> simp [ht] at h <;> exact h.2.2.symm
          rw [hws, List.filter_cons_of_neg (by simp [hf])]
          exact ih (i + 1) tr' te' ws' hr
    · rw [if_neg hf] at h
      cases hr : createAux ts (i + 1) rest with
      | none => rw [hr] at h; exact absurd h (by simp)
      | some v =>
        obtain ⟨tr', te', ws'⟩ := v
        rw [hr] at h
        simp only [Option.some.injEq, Prod.mk.injEq] at h
        rw [← h.2.2, List.filter_cons_of_pos (by simp [hf]), List.map_cons]
        exact congrArg (warnOf f :: ·) (ih (i + 1) tr' te' ws' hr)

theorem createAux_union_perm (ts : ℕ) :
    ∀ (files : List UploadedFile) (i : ℕ) (tr te : List DocRecord) (ws : List String),
      createAux ts i files = some (tr, te, ws) →
      (tr ++ te).Perm
        ((files.filter (fun f => decide (f.type = acceptedType))).map fileRecord) := by
  intro files
  induction files with
  | nil =>
    intro i tr te ws h
    simp [createAux] at h
    simp [h.1, h.2.1]
  | cons f rest ih =>
    intro i tr te ws h
    unfold createAux at h
    by_cases hf : f.type = acceptedType
    · rw [if_pos hf] at h
      cases he : (extract_text_from_docx f.stream).1 with
      | none => rw [he] at h; exact absurd h (by simp)
      | some c =>
        rw [he] at h
        cases hr : createAux ts (i + 1) rest with
        | none => rw [hr] at h; exact absurd h (by simp)
        | some v =>
          obtain ⟨tr', te', ws'⟩ := v
          rw [hr] at h
          simp only [] at h
          have hrec := ih (i + 1) tr' te' ws' hr
          rw [List.filter_cons_of_pos (by simp [hf]), List.map_cons,
            fileRecord_of_extract f c he]
          by_cases ht : isTestIndex ts i = true
          · rw [if_pos ht] at h
            simp only [Option.some.injEq, Prod.mk.injEq] at h
            rw [← h.1, ← h.2.1]
            exact (List.perm_middle).trans (hrec.cons (mkDocument c))
          · rw [if_neg ht] at h
            simp only [Option.some.injEq, Prod.mk.injEq] at h
            rw [← h.1, ← h.2.1]
            exact hrec.cons (mkDocument c)
    · rw [if_neg hf] at h
      cases hr : createAux ts (i + 1) rest with
      | none => rw [hr] at h; exact absurd h (by simp)
      | some v =>
        obtain ⟨tr', te', ws'⟩ := v
        rw [hr] at h
        simp only [Option.some.injEq, Prod.mk.injEq] at h
        rw [← h.1, ← h.2.1, List.filter_cons_of_neg (by simp [hf])]
        exact ih (i + 1) tr' te' ws' hr

theorem splitRecords_cons (ts i : ℕ) (f : UploadedFile) (rest : List UploadedFile) :
    splitRecords ts i (f :: rest) =
      if isTestIndex ts i then
        ((splitRecords ts (i + 1) rest).1, fileRecord f :: (splitRecords ts (i + 1) rest).2)
      else (fileRecord f :: (splitRecords ts (i + 1) rest).1, (splitRecords ts (i + 1) rest).2) := by
  rfl

theorem createAux_all_ok (ts : ℕ) :
    ∀ (files : List UploadedFile) (i : ℕ), (∀ f ∈ files, OKfile f) →
      createAux ts i files =
        some ((splitRecords ts i files).1, (splitRecords ts i files).2, []) := by
  intro files
  induction files with
  | nil => intro i _; simp [createAux, splitRecords]
  | cons f rest ih =>
    intro i hok
    have hf := hok f (List.mem_cons_self f rest)
    have hrest : ∀ g ∈ rest, OKfile g := fun g hg => hok g (List.mem_cons_of_mem f hg)
    unfold createAux
    rw [if_pos hf.1, extract_ok f hf, ih (i + 1) hrest, splitRecords_cons]
    simp only []
    by_cases ht : isTestIndex ts i = true
    · rw [if_pos ht, if_pos ht]
      simp [fileRecord]
    · rw [if_neg ht, if_neg ht]
      simp [fileRecord]

theorem splitRecords_no_test (ts : ℕ) :
    ∀ (files : List UploadedFile) (i : ℕ),
      (∀ j : ℕ, i ≤ j → j < i + files.length → isTestIndex ts j = false) →
      splitRecords ts i files = (files.map fileRecord, []) := by
  intro files
  induction files with
  | nil => intro i _; simp [splitRecords]
  | cons f rest ih =>
    intro i h
    have h0 : isTestIndex ts i = false := h i le_rfl (by simp)
    have hrest : ∀ j : ℕ, i + 1 ≤ j → j < (i + 1) + rest.length → isTestIndex ts j = false := by
      intro j h1 h2
      exact h j (by omega) (by simp; omega)
    unfold splitRecords
    rw [h0]
    simp [ih (i + 1) hrest]


/-! Claim theorems. -/

theorem pyJoin_eq_specJoinNewline : ∀ l : List String, pyJoin "\n" l = specJoinNewline l := by
  intro l
  induction l with
  | nil => rfl
  | cons p rest ih =>
    cases rest with
    | nil => rfl
    | cons q r =>
      show p ++ "\n" ++ pyJoin "\n" (q :: r) = p ++ "\n" ++ specJoinNewline (q :: r)
      rw [ih]

theorem dropWhile_forall_iff (p : Char → Bool) :
    ∀ l : List Char, (∀ c ∈ l.dropWhile p, p c = true) ↔ (∀ c ∈ l, p c = true) := by
  intro l
  induction l with
  | nil => simp
  | cons c tl ih =>
    by_cases hc : p c = true
    · rw [List.dropWhile_cons, if_pos hc]
      simp [List.forall_mem_cons, hc, ih]
    · rw [List.dropWhile_cons, if_neg hc]

theorem pyStripNonEmpty_eq_specTrim_ne (s : String) :
    pyStripNonEmpty s = decide (specTrim s ≠ "") := by
  rw [Bool.eq_iff_iff, decide_eq_true_eq]
  unfold pyStripNonEmpty specTrim
  have hmk : (String.mk (((s.data.dropWhile Char.isWhitespace).reverse.dropWhile
      Char.isWhitespace).reverse) ≠ "") ↔
      ¬ (((s.data.dropWhile Char.isWhitespace).reverse.dropWhile
        Char.isWhitespace).reverse = []) := by
    constructor
    · intro h h2
      exact h (by rw [h2])
    · intro h h2
      apply h
      have := congrArg String.data h2
      simpa using this
  rw [hmk, List.reverse_eq_nil_iff, List.dropWhile_eq_nil_iff]
  simp only [List.mem_reverse]
  rw [dropWhile_forall_iff]
  rw [List.any_eq_true]
  constructor
  · rintro ⟨c, hc, hnc⟩ hall
    have h1 := hall c hc
    rw [h1] at hnc
    simp at hnc
  · intro h
    by_contra hno
    push_neg at hno
    apply h
    intro c hc
    have := hno c hc
    revert this
    cases c.isWhitespace <;> simp

theorem paragraphJoin_eq_specExtractText (paras : List String) :
    paragraphJoin paras = specExtractText paras := by
  unfold paragraphJoin specExtractText
  rw [List.filter_congr (fun p _ => pyStripNonEmpty_eq_specTrim_ne p)]
  exact pyJoin_eq_specJoinNewline _

/-- Claim C4 (confirmed): on every valid container the Text Extractor
returns exactly the paragraphs whose trimmed text is non-empty, in order,
with their untrimmed texts joined by single newlines, as the spec
describes. -/
theorem c4_extractor_matches_spec (s : DocxStream) (paras : List String)
    (hc : s.consumed = false) (hp : s.parsed = some paras) :
    (extract_text_from_docx s).1 = some (specExtractText paras) := by
  simp [extract_text_from_docx, readDocx, hc, hp, paragraphJoin_eq_specExtractText]

/-- Witness for C4 at a concrete one-paragraph container. -/
theorem c4_witness :
    (sampleStream.consumed = false ∧ sampleStream.parsed = some ["Hello paragraph"]) ∧
      (extract_text_from_docx sampleStream).1 = some (specExtractText ["Hello paragraph"]) :=
  ⟨⟨rfl, rfl⟩, c4_extractor_matches_spec sampleStream ["Hello paragraph"] rfl rfl⟩

/-- Claim C5 counterexample: a batch holding a malformed accepted-type file
followed by a well-formed one produces no result at all (the exception from
Document() propagates), instead of skipping the bad file with a warning and
processing the rest as the claim states. -/
theorem c5_counterexample : create_jsonl_data 20 [badDocx, sampleDocx] = none := by
  decide

/-- Claim C5 (corrected): an accepted-type item whose bytes are not a valid
DOCX aborts the whole batch with no output and no warning; the remaining
files are not processed. -/
theorem c5_malformed_aborts_batch (ts : ℕ) (files : List UploadedFile)
    (h : ∃ f ∈ files, f.type = acceptedType ∧ f.stream.parsed = none) :
    create_jsonl_data ts files = none :=
  createAux_malformed ts files 0 h

/-- Witness for C5 at a concrete two-file batch. -/
theorem c5_witness :
    (∃ f ∈ [badDocx, sampleDocx], f.type = acceptedType ∧ f.stream.parsed = none) ∧
      create_jsonl_data 20 [badDocx, sampleDocx] = none :=
  ⟨⟨badDocx, by simp, rfl, rfl⟩,
    c5_malformed_aborts_batch 20 [badDocx, sampleDocx] ⟨badDocx, by simp, rfl, rfl⟩⟩

/-- Claim C6 (confirmed): the slider on line 95 only supplies split
percentages between 10 and 50, so the divisor in 100/test_split is never
zero, the float period is positive, and the classification on line 240 is
well defined for every reachable split value; the default 20 is
reachable. -/
theorem c6_slider_guards_division :
    (∀ P : ℕ, reachableTestSplit P → 0 < P ∧ ((P : ℚ)) ≠ 0 ∧ 0 < splitPeriod P) ∧
      reachableTestSplit testSplitSliderDefault := by
  constructor
  · intro P hP
    have h1 : 10 ≤ P := hP.1
    have h2 : P ≤ 50 := hP.2
    refine ⟨by omega, ?_, splitPeriod_pos P h1 h2⟩
    exact_mod_cast Nat.cast_ne_zero.mpr (by omega : P ≠ 0)
  · exact ⟨by decide, by decide⟩

/-- Witness for C6 at the default slider value. -/
theorem c6_witness :
    reachableTestSplit 20 ∧ (0 < 20 ∧ ((20 : ℚ)) ≠ 0 ∧ 0 < splitPeriod 20) :=
  ⟨by decide, by
    have h := c6_slider_guards_division.1 20 (by decide)
    exact_mod_cast h⟩

/-- Claim C7 counterexample: running the extractor twice on the same
uploaded file object returns the text the first time and fails the second
time, because read() drained the stream, so the two runs do not yield
identical text. -/
theorem c7_counterexample :
    (extract_text_from_docx sampleStream).1 = some "Hello paragraph" ∧
      (extract_text_from_docx (extract_text_from_docx sampleStream).2).1 = none := by
  decide

/-- Claim C7 (corrected): extraction is a deterministic function of the
container state, but it consumes the stream: after any run the stream is
drained, and a second run on the returned container object always fails to
parse (read() yields empty bytes, which are not a valid container), so the
second run does not return the text again. -/
theorem c7_extractor_consumes_stream (s : DocxStream) :
    (extract_text_from_docx s).2.consumed = true ∧
      (extract_text_from_docx (extract_text_from_docx s).2).1 = none := by
  unfold extract_text_from_docx readDocx
  by_cases hc : s.consumed <;> simp [hc]

/-- Claim C1 counterexample: with one unsupported file followed by one valid
file (P = 20), the valid file lands in train and test is empty, because the
enumerate index 1 is kept for the valid file; the claim predicted test =
[doc] and train = [] in either order. -/
theorem c1_counterexample :
    create_jsonl_data 20 [sampleTxt, sampleDocx] = some ([sampleRecord], [], [warnOf sampleTxt]) ∧
      create_jsonl_data 20 [sampleTxt, sampleDocx] ≠ some ([], [sampleRecord], [warnOf sampleTxt]) := by
  with_unfolding_all decide

/-- Claim C1 (corrected): a skipped file does advance the split counter —
the index used on line 240 is the position in the full uploaded sequence
(enumerate), not a count of accepted files.  For one valid and one
unsupported file: valid first goes to test with train empty, valid second
goes to train with test empty, for every slider-reachable P. -/
theorem c1_split_counter_advances (P : ℕ) (v u : UploadedFile)
    (hmin : testSplitSliderMin ≤ P) (hmax : P ≤ testSplitSliderMax)
    (hv : OKfile v) (hu : u.type ≠ acceptedType) :
    create_jsonl_data P [v, u] = some ([], [fileRecord v], [warnOf u]) ∧
      create_jsonl_data P [u, v] = some ([fileRecord v], [], [warnOf u]) := by
  have h0 : isTestIndex P 0 = true := isTestIndex_zero P
  have h1 : isTestIndex P 1 = false := isTestIndex_one P hmin hmax
  constructor
  · simp [create_jsonl_data, createAux, hv.1, hu, extract_ok v hv, h0, h1, fileRecord]
  · simp [create_jsonl_data, createAux, hv.1, hu, extract_ok v hv, h0, h1, fileRecord]

/-- Witness for C1 at P = 20 with the sample files. -/
theorem c1_witness :
    (testSplitSliderMin ≤ 20 ∧ 20 ≤ testSplitSliderMax ∧ OKfile sampleDocx ∧
        sampleTxt.type ≠ acceptedType) ∧
      (create_jsonl_data 20 [sampleDocx, sampleTxt] =
          some ([], [fileRecord sampleDocx], [warnOf sampleTxt]) ∧
        create_jsonl_data 20 [sampleTxt, sampleDocx] =
          some ([fileRecord sampleDocx], [], [warnOf sampleTxt])) :=
  ⟨by decide,
    c1_split_counter_advances 20 sampleDocx sampleTxt (by decide) (by decide) (by decide)
      (by decide)⟩

/-- Claim C3 counterexample: two accepted files with identical contents
(P = 20) put the same record value in both subsets, so train and test are
not disjoint as sets of records. -/
theorem c3_counterexample :
    create_jsonl_data 20 [sampleDocx, sampleDocx2] =
        some ([sampleRecord], [sampleRecord], []) ∧
      ¬ ([sampleRecord] : List DocRecord).Disjoint [sampleRecord] := by
  constructor
  · with_unfolding_all decide
  · intro h
    exact h (List.mem_singleton_self sampleRecord) (List.mem_singleton_self sampleRecord)

/-- Claim C3 (corrected): each accepted input item contributes its record to
exactly one subset — train ++ test is a permutation of the records of the
accepted items in upload order (so counting multiplicity nothing is lost or
duplicated) — and when those records are pairwise distinct the two subsets
are also disjoint as sets; with duplicated contents the same record value
can appear in both subsets. -/
theorem c3_each_accepted_in_exactly_one (ts : ℕ) (files : List UploadedFile)
    (tr te : List DocRecord) (ws : List String)
    (h : create_jsonl_data ts files = some (tr, te, ws)) :
    (tr ++ te).Perm ((files.filter (fun f => decide (f.type = acceptedType))).map fileRecord) ∧
      (((files.filter (fun f => decide (f.type = acceptedType))).map fileRecord).Nodup →
        tr.Disjoint te) := by
  have hperm := createAux_union_perm ts files 0 tr te ws h
  refine ⟨hperm, fun hnd => ?_⟩
  have hnodup : (tr ++ te).Nodup := (hperm.nodup_iff).mpr hnd
  exact (List.nodup_append.mp hnodup).2.2

/-- Witness for C3 at a concrete two-file batch. -/
theorem c3_witness :
    create_jsonl_data 20 [sampleDocx, sampleTxt] =
        some ([], [sampleRecord], [warnOf sampleTxt]) ∧
      ((([] : List DocRecord) ++ [sampleRecord]).Perm
          ((([sampleDocx, sampleTxt] : List UploadedFile).filter (fun f => decide (f.type = acceptedType))).map
            fileRecord) ∧
        (((([sampleDocx, sampleTxt] : List UploadedFile).filter (fun f => decide (f.type = acceptedType))).map
            fileRecord).Nodup →
          ([] : List DocRecord).Disjoint [sampleRecord])) :=
  ⟨by with_unfolding_all decide,
    c3_each_accepted_in_exactly_one 20 [sampleDocx, sampleTxt] [] [sampleRecord]
      [warnOf sampleTxt] (by with_unfolding_all decide)⟩

/-- Claim C8 (confirmed): when both produced subsets are empty the handler
reports the no-valid-files condition (once, and it never reaches the
publish call); otherwise it publishes {train, test} keyed by the
user-supplied repository name. -/
theorem c8_empty_result_vs_publish (ts : ℕ) (repo : String) (files : List UploadedFile)
    (tr te : List DocRecord) (ws : List String)
    (h : create_jsonl_data ts files = some (tr, te, ws)) :
    (tr = [] ∧ te = [] → generate_and_upload ts repo files = RunOutcome.noValidFiles) ∧
      ((tr ≠ [] ∨ te ≠ []) →
        generate_and_upload ts repo files = RunOutcome.published repo tr te) := by
  unfold generate_and_upload
  rw [h]
  simp only []
  constructor
  · rintro ⟨rfl, rfl⟩
    simp
  · intro hne
    have hcond : ¬ ((tr.isEmpty && te.isEmpty) = true) := by
      intro hc
      rw [Bool.and_eq_true, List.isEmpty_iff, List.isEmpty_iff] at hc
      tauto
    rw [if_neg hcond]

/-- Witness for C8 at a batch with no valid files. -/
theorem c8_witness :
    create_jsonl_data 20 [sampleTxt] = some ([], [], [warnOf sampleTxt]) ∧
      ((([] : List DocRecord) = [] ∧ ([] : List DocRecord) = [] →
          generate_and_upload 20 "Falah/rag" [sampleTxt] = RunOutcome.noValidFiles) ∧
        ((([] : List DocRecord) ≠ [] ∨ ([] : List DocRecord) ≠ []) →
          generate_and_upload 20 "Falah/rag" [sampleTxt] =
            RunOutcome.published "Falah/rag" [] [])) :=
  ⟨by decide,
    c8_empty_result_vs_publish 20 "Falah/rag" [sampleTxt] [] [] [warnOf sampleTxt] (by decide)⟩

/-- Claim C9 (confirmed): every wrong-typed item produces exactly one
warning naming its actual type, in upload order, and contributes to neither
subset: the union of the subsets draws only on the accepted items. -/
theorem c9_rejected_warned_not_included (ts : ℕ) (files : List UploadedFile)
    (tr te : List DocRecord) (ws : List String)
    (h : create_jsonl_data ts files = some (tr, te, ws)) :
    ws = (files.filter (fun f => decide (f.type ≠ acceptedType))).map warnOf ∧
      (tr ++ te).Perm ((files.filter (fun f => decide (f.type = acceptedType))).map fileRecord) :=
  ⟨createAux_warnings ts files 0 tr te ws h, createAux_union_perm ts files 0 tr te ws h⟩

/-- Witness for C9 at a concrete mixed batch. -/
theorem c9_witness :
    create_jsonl_data 20 [sampleTxt, sampleDocx] =
        some ([sampleRecord], [], [warnOf sampleTxt]) ∧
      ([warnOf sampleTxt] =
          ((([sampleTxt, sampleDocx] : List UploadedFile).filter
            (fun f : UploadedFile => decide (f.type ≠ acceptedType))).map warnOf) ∧
        (([sampleRecord] : List DocRecord) ++ []).Perm
          ((([sampleTxt, sampleDocx] : List UploadedFile).filter
            (fun f : UploadedFile => decide (f.type = acceptedType))).map fileRecord)) :=
  ⟨by with_unfolding_all decide,
    c9_rejected_warned_not_included 20 [sampleTxt, sampleDocx] [sampleRecord] []
      [warnOf sampleTxt] (by with_unfolding_all decide)⟩

/-- Claim C2 counterexample: at P = 30 the real-valued rule puts index 10 in
the test subset (10 is exactly 3 times the real period 10/3), but the code,
computing in binary64, sends all of indices 1..10 to train: with 11
identical accepted files the test subset holds only the index-0 record. -/
theorem c2_counterexample :
    specRealIsTest 30 10 ∧
      create_jsonl_data 30 (List.replicate 11 sampleDocx) =
        some (List.replicate 10 sampleRecord, [sampleRecord], []) := by
  with_unfolding_all decide

/-- Claim C2 (corrected): the document at accepted index i goes to the test
subset exactly when the binary64 computation i % float64(100/P) on line 240
returns 0 — the float period, not the real-valued period — and otherwise to
train; in particular for P = 20 and ten accepted files the test subset is
the records of indices 0 and 5 and the train subset the other eight, in
order. -/
theorem c2_float_split_rule :
    (∀ (ts : ℕ) (files : List UploadedFile), (∀ f ∈ files, OKfile f) →
        create_jsonl_data ts files =
          some ((splitRecords ts 0 files).1, (splitRecords ts 0 files).2, [])) ∧
      (∀ f0 f1 f2 f3 f4 f5 f6 f7 f8 f9 : UploadedFile,
        (∀ f ∈ [f0, f1, f2, f3, f4, f5, f6, f7, f8, f9], OKfile f) →
        create_jsonl_data 20 [f0, f1, f2, f3, f4, f5, f6, f7, f8, f9] =
          some ([fileRecord f1, fileRecord f2, fileRecord f3, fileRecord f4,
                 fileRecord f6, fileRecord f7, fileRecord f8, fileRecord f9],
                [fileRecord f0, fileRecord f5], [])) := by
  have hmain : ∀ (ts : ℕ) (files : List UploadedFile), (∀ f ∈ files, OKfile f) →
      create_jsonl_data ts files =
        some ((splitRecords ts 0 files).1, (splitRecords ts 0 files).2, []) :=
    fun ts files hok => createAux_all_ok ts files 0 hok
  refine ⟨hmain, ?_⟩
  intro f0 f1 f2 f3 f4 f5 f6 f7 f8 f9 hok
  rw [hmain 20 _ hok]
  have e0 : isTestIndex 20 0 = true := by with_unfolding_all decide
  have e1 : isTestIndex 20 1 = false := by with_unfolding_all decide
  have e2 : isTestIndex 20 2 = false := by with_unfolding_all decide
  have e3 : isTestIndex 20 3 = false := by with_unfolding_all decide
  have e4 : isTestIndex 20 4 = false := by with_unfolding_all decide
  have e5 : isTestIndex 20 5 = true := by with_unfolding_all decide
  have e6 : isTestIndex 20 6 = false := by with_unfolding_all decide
  have e7 : isTestIndex 20 7 = false := by with_unfolding_all decide
  have e8 : isTestIndex 20 8 = false := by with_unfolding_all decide
  have e9 : isTestIndex 20 9 = false := by with_unfolding_all decide
  simp [splitRecords_cons, splitRecords, e0, e1, e2, e3, e4, e5, e6, e7, e8, e9]

/-- Witness for C2 at a concrete singleton batch. -/
theorem c2_witness :
    (∀ f ∈ ([sampleDocx] : List UploadedFile), OKfile f) ∧
      create_jsonl_data 20 [sampleDocx] =
        some ((splitRecords 20 0 [sampleDocx]).1, (splitRecords 20 0 [sampleDocx]).2, []) :=
  ⟨by decide, c2_float_split_rule.1 20 [sampleDocx] (by decide)⟩

/-- Binary64 periods of the slider percentages that do not divide 100 and
whose period 100/P is not exactly representable: their reduced numerators
all exceed 10^14, so the first positive index the float rule can send to
test is beyond 10^14.  (P = 16, 32, 40 are excluded: 6.25, 3.125 and 2.5
are exact binary64 values.) -/
theorem splitPeriod_num_large : ∀ P : ℕ, P < 51 →
    (10 ≤ P ∧ ¬ (P ∣ 100) ∧ P ≠ 16 ∧ P ≠ 32 ∧ P ≠ 40) →
    (10 ^ 14 : ℤ) < (splitPeriod P).num := by
  with_unfolding_all decide

/-- Claim C10 counterexample: P = 16 is between 10 and 50 and does not
divide 100, yet its float period 100/16 = 6.25 is exact and index 25 is an
exact multiple of it, so with 26 identical accepted files two documents land
in test (indices 0 and 25), not exactly one as the claim asserts. -/
theorem c10_counterexample :
    (10 ≤ 16 ∧ 16 ≤ 50 ∧ ¬ ((16 : ℕ) ∣ 100)) ∧
      create_jsonl_data 16 (List.replicate 26 sampleDocx) =
        some (List.replicate 24 sampleRecord, [sampleRecord, sampleRecord], []) := by
  with_unfolding_all decide

/-- Claim C10 (corrected): for a slider percentage P that does not divide
100, "only index 0 goes to test" holds only when the float period is not
exactly representable (P distinct from 16, 32 and 40, whose periods 6.25,
3.125 and 2.5 admit further exact multiples such as 25); for those P every
upload of at most 10^14 + 1 accepted documents sends exactly the first
document to test and all others to train. -/
theorem c10_nondyadic_period_single_test_doc (P : ℕ) (f : UploadedFile)
    (rest : List UploadedFile) (h10 : 10 ≤ P) (h50 : P ≤ 50) (hnd : ¬ (P ∣ 100))
    (h16 : P ≠ 16) (h32 : P ≠ 32) (h40 : P ≠ 40)
    (hok : ∀ g ∈ f :: rest, OKfile g) (hlen : rest.length ≤ 10 ^ 14) :
    create_jsonl_data P (f :: rest) = some (rest.map fileRecord, [fileRecord f], []) := by
  have hpos : 0 < splitPeriod P := splitPeriod_pos P h10 h50
  have hnum : (10 ^ 14 : ℤ) < (splitPeriod P).num :=
    splitPeriod_num_large P (by omega) ⟨h10, hnd, h16, h32, h40⟩
  have hno : ∀ j : ℕ, 1 ≤ j → j ≤ 10 ^ 14 → isTestIndex P j = false := by
    intro j hj1 hj2
    by_contra hcon
    have htrue : isTestIndex P j = true := by
      revert hcon
      cases isTestIndex P j <;> simp
    have hj53 : j < 2 ^ 53 := by
      have hcmp : (10 : ℕ) ^ 14 < 2 ^ 53 := by norm_num
      omega
    have hdvd : (splitPeriod P).num ∣ (j : ℤ) :=
      (isTestIndex_iff_dvd P j hj53 hpos).mp htrue
    have hle : (splitPeriod P).num ≤ (j : ℤ) :=
      Int.le_of_dvd (by exact_mod_cast hj1) hdvd
    have hjz : (j : ℤ) ≤ (10 : ℤ) ^ 14 := by exact_mod_cast hj2
    norm_num at hnum hjz
    omega
  rw [show create_jsonl_data P (f :: rest) = createAux P 0 (f :: rest) from rfl,
    createAux_all_ok P (f :: rest) 0 hok, splitRecords_cons, if_pos (isTestIndex_zero P)]
  have hrest : splitRecords P 1 rest = (rest.map fileRecord, []) := by
    apply splitRecords_no_test
    intro j hj1 hj2
    exact hno j hj1 (by omega)
  rw [hrest]

/-- Witness for C10 at P = 30 with a single accepted file. -/
theorem c10_witness :
    (10 ≤ 30 ∧ 30 ≤ 50 ∧ ¬ ((30 : ℕ) ∣ 100) ∧ (30 : ℕ) ≠ 16 ∧ (30 : ℕ) ≠ 32 ∧
        (30 : ℕ) ≠ 40 ∧ (∀ g ∈ ([sampleDocx] : List UploadedFile), OKfile g) ∧
        ([] : List UploadedFile).length ≤ 10 ^ 14) ∧
      create_jsonl_data 30 [sampleDocx] =
        some (([] : List UploadedFile).map fileRecord, [fileRecord sampleDocx], []) :=
  ⟨by refine ⟨by decide, by decide, by decide, by decide, by decide, by decide, by decide, ?_⟩
      decide,
    c10_nondyadic_period_single_test_doc 30 sampleDocx [] (by decide) (by decide) (by decide)
      (by decide) (by decide) (by decide) (by decide) (by decide)⟩

end DocxApp
